import Mathlib

/-!
Verification of the `xint` interactive TUI (`src/unnamed/part_002`, plus the
sanitizer exercised by `src/lib/tui.test.ts`) against the natural-language
specification.  Strings from the TypeScript source are shallowly embedded as
`List Char`; JavaScript array/string operations are translated operation by
operation.
-/

/-- ECMAScript whitespace (WhiteSpace ∪ LineTerminator productions, plus the
Unicode `Space_Separator` code points), as recognised by `String.prototype.trim`,
`trimStart` and `trimEnd`. -/
def isJsSpace (c : Char) : Bool :=
  c.toNat = 9 || c.toNat = 10 || c.toNat = 11 || c.toNat = 12 || c.toNat = 13 ||
  c.toNat = 32 || c.toNat = 160 || c.toNat = 0x1680 ||
  (0x2000 ≤ c.toNat && c.toNat ≤ 0x200A) ||
  c.toNat = 0x2028 || c.toNat = 0x2029 || c.toNat = 0x202F ||
  c.toNat = 0x205F || c.toNat = 0x3000 || c.toNat = 0xFEFF

/-- JS `value.trimEnd()`: drop trailing whitespace. -/
def trimEndJs (l : List Char) : List Char :=
  (l.reverse.dropWhile isJsSpace).reverse

/-- JS `value.trim()`: drop leading and trailing whitespace. -/
def trimJs (l : List Char) : List Char :=
  trimEndJs (l.dropWhile isJsSpace)

/-- JS `.replace(/\r\n/g, "\n")` — left-to-right non-overlapping replacement
of CRLF pairs by LF (src/unnamed/part_002 line 179). -/
def normalizeCRLF : List Char → List Char
  | [] => []
  | '\r' :: '\n' :: rest => '\n' :: normalizeCRLF rest
  | c :: rest => c :: normalizeCRLF rest

/-- JS `.split("\n")`: split on LF, keeping empty segments
(src/unnamed/part_002 line 180). -/
def splitOnNL : List Char → List (List Char)
  | [] => [[]]
  | '\n' :: rest => [] :: splitOnNL rest
  | c :: rest =>
    match splitOnNL rest with
    | [] => [[c]]
    | h :: t => (c :: h) :: t

/-- `decodeLines` from src/unnamed/part_002 lines 175-183: decode the byte
buffer (modelled as the decoded character list), normalize CRLF, split on
newlines, trim each line's end, and drop empty lines. -/
def decodeLines (bytes : List Char) : List (List Char) :=
  if bytes = [] then []
  else ((splitOnNL (normalizeCRLF bytes)).map trimEndJs).filter (fun l => !l.isEmpty)

/-- JS `arr.slice(-n)` for `n > 0`: the last `min n arr.length` elements. -/
def takeLast (n : Nat) (l : List α) : List α :=
  l.drop (l.length - n)

/-- The `"[stderr] "` marker prepended to each decoded stderr line
(src/unnamed/part_002 line 218). -/
def stderrTag : List Char := "[stderr] ".toList

/-- `combined` in `runSubcommand` (src/unnamed/part_002 line 219): decoded
stdout lines followed by the tagged stderr lines. -/
def combinedLines (so se : List Char) : List (List Char) :=
  decodeLines so ++ (decodeLines se).map (fun l => stderrTag ++ l)

/-- The status string of `runSubcommand` (src/unnamed/part_002 line 221):
`"success"` for exit code 0, otherwise `"failed (exit <code>)"`. -/
def statusOf (exitCode : Nat) : List Char :=
  if exitCode = 0 then "success".toList
  else "failed (exit ".toList ++ (toString exitCode).toList ++ ")".toList

/-- The pure data path of `runSubcommand` (src/unnamed/part_002 lines
185-223): given the fully drained stdout and stderr byte streams and the exit
code, produce the returned `{status, outputLines}` pair.  The `capped`
variable is `combined.slice(-120)` (line 220). -/
def runSubcommandPure (so se : List Char) (exitCode : Nat) :
    List Char × List (List Char) :=
  (statusOf exitCode, takeLast 120 (combinedLines so se))

example : decodeLines "a\r\nb\n\nc ".toList = [['a'], ['b'], ['c']] := by decide

example : runSubcommandPure "x\n".toList "y\n".toList 3 =
    ("failed (exit 3)".toList, [['x'], "[stderr] y".toList]) := by decide

/-- `requireInput` (src/unnamed/part_002 lines 225-229): trim the value; throw
`"<label> is required."` when the trimmed value is empty, otherwise return the
trimmed value.  The thrown `Error` is modelled by `Except.error` carrying the
message. -/
def requireInput (value : List Char) (label : List Char) :
    Except (List Char) (List Char) :=
  let trimmed := trimJs value
  if trimmed = [] then .error (label ++ " is required.".toList)
  else .ok trimmed

/-- `promptWithDefault` (src/unnamed/part_002 lines 231-235): a non-blank
answer (trimmed) wins, otherwise the previous session value, otherwise `""`. -/
def promptWithDefault (value : List Char) (previous : Option (List Char)) :
    List Char :=
  let trimmed := trimJs value
  if trimmed = [] then previous.getD [] else trimmed

/-- `SessionState` (src/unnamed/part_002 lines 13-22). -/
structure SessionState where
  lastSearch : Option (List Char) := none
  lastLocation : Option (List Char) := none
  lastUsername : Option (List Char) := none
  lastTweetRef : Option (List Char) := none
  lastArticleUrl : Option (List Char) := none
  lastCommand : Option (List Char) := none
  lastStatus : Option (List Char) := none
  lastOutputLines : List (List Char) := []

/-- The fresh session created at the top of `cmdTui`
(src/unnamed/part_002 lines 240-242). -/
def initialSession : SessionState := {}

/-- A `MenuOption` record (src/unnamed/part_002 lines 6-11). -/
structure MenuOption where
  key : List Char
  label : List Char
  aliases : List (List Char)
  hint : List Char

/-- The static `MENU_OPTIONS` catalog (src/unnamed/part_002 lines 24-32). -/
def MENU_OPTIONS : List MenuOption :=
  [⟨"1".toList, "Search".toList, ["search".toList, "s".toList],
    "keyword, topic, or boolean query".toList⟩,
   ⟨"2".toList, "Trends".toList, ["trends".toList, "trend".toList, "t".toList],
    "location name or blank for global".toList⟩,
   ⟨"3".toList, "Profile".toList, ["profile".toList, "user".toList, "p".toList],
    "username (without @)".toList⟩,
   ⟨"4".toList, "Thread".toList, ["thread".toList, "th".toList],
    "tweet id or tweet url".toList⟩,
   ⟨"5".toList, "Article".toList, ["article".toList, "a".toList],
    "article url or tweet url".toList⟩,
   ⟨"6".toList, "Help".toList, ["help".toList, "h".toList, "?".toList],
    "show full CLI help".toList⟩,
   ⟨"0".toList, "Exit".toList, ["exit".toList, "quit".toList, "q".toList],
    "close interactive mode".toList⟩]

/-- JS `array.join(", ")` over the alias strings. -/
def joinCommaSep : List (List Char) → List Char
  | [] => []
  | [x] => x
  | x :: rest => x ++ ", ".toList ++ joinCommaSep rest

/-- The ` (alias, alias)` suffix of a menu line (src/unnamed/part_002
line 64). -/
def aliasesText (o : MenuOption) : List Char :=
  if o.aliases.isEmpty then []
  else " (".toList ++ joinCommaSep o.aliases ++ ")".toList

/-- One pointer line of the left pane: `"<pointer> <key>) <label><aliases>"`
(src/unnamed/part_002 lines 62-65). -/
def pointerLine (activeIndex idx : Nat) (o : MenuOption) : List Char :=
  (if idx = activeIndex then "›".toList else " ".toList) ++ " ".toList ++
    o.key ++ ") ".toList ++ o.label ++ aliasesText o

/-- `buildLeftPane` (src/unnamed/part_002 lines 55-69). -/
def buildLeftPane (activeIndex : Nat) : List (List Char) :=
  ["=== xint interactive ===".toList,
   "Use Up/Down + Enter. Press q to exit.".toList,
   []] ++
  MENU_OPTIONS.enum.flatMap
    (fun p => [pointerLine activeIndex p.1 p.2, "    ".toList ++ p.2.hint])

/-- `buildRightPane` (src/unnamed/part_002 lines 71-83). -/
def buildRightPane (s : SessionState) : List (List Char) :=
  ["=== last run ===".toList,
   "command: ".toList ++ s.lastCommand.getD "-".toList,
   "status: ".toList ++ s.lastStatus.getD "-".toList,
   [],
   "output:".toList] ++
  (if s.lastOutputLines = [] then ["(none yet)".toList] else s.lastOutputLines)

/-- `clipText` (src/unnamed/part_002 lines 44-49): empty for width 0, the
value itself when it fits, a run of dots for widths up to 3, otherwise a
truncation ending in `"..."`. -/
def clipText (v : List Char) (width : Nat) : List Char :=
  if width = 0 then []
  else if v.length ≤ width then v
  else if width ≤ 3 then List.replicate width '.'
  else v.take (width - 3) ++ "...".toList

/-- `padText` (src/unnamed/part_002 lines 51-53): clip, then pad on the right
with spaces to exactly `width` (JS `padEnd(width, " ")`). -/
def padText (v : List Char) (width : Nat) : List Char :=
  let c := clipText v width
  c ++ List.replicate (width - c.length) ' '

/-- `leftWidth` (src/unnamed/part_002 line 88): `max(42, floor(columns*0.45))`.
For terminal-sized `columns` the double-rounded `Math.floor(columns * 0.45)`
coincides with exact `⌊columns·45/100⌋`. -/
def leftWidthOf (columns : Nat) : Nat := max 42 (columns * 45 / 100)

/-- `rightWidth` (src/unnamed/part_002 line 89): `max(24, columns-leftWidth-3)`
(the JS value is negative exactly when the Nat subtraction truncates, and both
are then superseded by the `max` with 24). -/
def rightWidthOf (columns : Nat) : Nat :=
  max 24 (columns - leftWidthOf columns - 3)

/-- `totalRows` (src/unnamed/part_002 line 90): `max(14, rows - 1)`. -/
def totalRowsOf (rows : Nat) : Nat := max 14 (rows - 1)

/-- `leftRaw.startsWith("› ")` (src/unnamed/part_002 line 99). -/
def isActiveRow : List Char → Bool
  | '›' :: ' ' :: _ => true
  | _ => false

/-- One row written by the render loop (src/unnamed/part_002 lines 96-106):
the padded left pane, the `" | "` separator and the padded right pane, with
the active menu row's left text wrapped in the bold-cyan escape sequence. -/
def renderRow (activeIndex : Nat) (s : SessionState) (columns rows row : Nat) :
    List Char :=
  let leftRaw := (buildLeftPane activeIndex).getD row []
  let rightRaw := (takeLast (totalRowsOf rows) (buildRightPane s)).getD row []
  let leftText := padText leftRaw (leftWidthOf columns)
  let rightText := padText rightRaw (rightWidthOf columns)
  if isActiveRow leftRaw then
    "\x1b[1;36m".toList ++ leftText ++ "\x1b[0m".toList ++ " | ".toList ++
      rightText
  else
    leftText ++ " | ".toList ++ rightText

/-- The full frame written by `renderInteractiveMenu` (src/unnamed/part_002
lines 85-107), one entry per terminal row (the leading clear-screen escape is
not part of any row). -/
def renderFrame (activeIndex : Nat) (s : SessionState) (columns rows : Nat) :
    List (List Char) :=
  (List.range (totalRowsOf rows)).map (renderRow activeIndex s columns rows)

/-- Up/Down key events handled by `selectOption`'s keypress listener
(src/unnamed/part_002 lines 134-143). -/
inductive NavKey
  | up
  | down

/-- One up/down keypress on `activeIndex` (src/unnamed/part_002 lines
135, 140): `(i - 1 + n) % n` for up (written with the addition first, which
agrees on every in-range JS integer) and `(i + 1) % n` for down. -/
def navStep (i : Nat) : NavKey → Nat
  | .up => (i + MENU_OPTIONS.length - 1) % MENU_OPTIONS.length
  | .down => (i + 1) % MENU_OPTIONS.length

/-- Folding a sequence of up/down events through the keypress handler. -/
def navigate (i : Nat) (evs : List NavKey) : Nat :=
  evs.foldl navStep i

/-- Whether the `for (;;)` loop of `cmdTui` keeps iterating after the current
iteration. -/
inductive LoopControl
  | exitLoop
  | continueLoop
  deriving DecidableEq

/-- The observable outcome of one `cmdTui` loop iteration: the updated
session, whether the loop continues, and the console messages printed. -/
structure IterationResult where
  session : SessionState
  control : LoopControl
  console : List (List Char)

/-- The `case "1"` (Search) body of `cmdTui` together with its enclosing
`try`/`catch` (src/unnamed/part_002 lines 256-274 and 355-358): a failing
`requireInput` is caught, printed as `"[tui] <message>"`, and the loop
continues; otherwise the session is updated and the subcommand's result
(passed in as `runResult`, since the spawn itself is I/O) is recorded. -/
def searchIteration (promptValue : List Char) (s : SessionState)
    (runResult : List Char × List (List Char)) : IterationResult :=
  match requireInput (promptWithDefault promptValue s.lastSearch)
      "Query".toList with
  | .error m => ⟨s, .continueLoop, ["[tui] ".toList ++ m]⟩
  | .ok q =>
    ⟨{ s with lastSearch := some q,
              lastCommand := some ("xint search ".toList ++ q),
              lastStatus := some runResult.1,
              lastOutputLines := runResult.2 },
     .continueLoop, []⟩

/-- States of the escape-sequence scanner used by `sanitizeOutputLine`:
plain text, just after `ESC`, inside a CSI sequence, inside an OSC sequence,
and after `ESC` inside an OSC sequence. -/
inductive SanState
  | text
  | esc
  | csi
  | osc
  | oscEsc

/-- A control character (C0 range or DEL), dropped by the sanitizer. -/
def isCtl (c : Char) : Bool := c.toNat < 32 || c.toNat = 127

/-- A CSI final byte (`@` through `~`). -/
def isCsiFinal (c : Char) : Bool := 0x40 ≤ c.toNat && c.toNat ≤ 0x7E

/-- Modelled from the spec: the scanner behind `sanitizeOutputLine`, which is
not under `src/` (only its test `src/lib/tui.test.ts` is).  Per the spec,
"terminal escape sequences, control characters, and carriage returns are
stripped": CSI sequences (`ESC [` … final byte), OSC sequences (`ESC ]` …
`BEL` or `ESC \`) and other two-character escapes are consumed, every other
control character is dropped, and the remaining visible text is kept. -/
def sanitizeAux : SanState → List Char → List Char
  | _, [] => []
  | .text, c :: rest =>
    if c = '\x1b' then sanitizeAux .esc rest
    else if isCtl c then sanitizeAux .text rest
    else c :: sanitizeAux .text rest
  | .esc, c :: rest =>
    if c = '[' then sanitizeAux .csi rest
    else if c = ']' then sanitizeAux .osc rest
    else sanitizeAux .text rest
  | .csi, c :: rest =>
    if isCsiFinal c then sanitizeAux .text rest else sanitizeAux .csi rest
  | .osc, c :: rest =>
    if c = '\x07' then sanitizeAux .text rest
    else if c = '\x1b' then sanitizeAux .oscEsc rest
    else sanitizeAux .osc rest
  | .oscEsc, c :: rest =>
    if c = '\\' then sanitizeAux .text rest else sanitizeAux .osc rest

/-- Modelled from the spec: `sanitizeOutputLine` (missing from `src/`; its
unit test lives in `src/lib/tui.test.ts` lines 5-8). -/
def sanitizeOutputLine (l : List Char) : List Char :=
  sanitizeAux .text l

example :
    sanitizeOutputLine "\x1b[31merror\x1b[0m\x1b]0;title\x07\r".toList =
      "error".toList := by decide

example : renderFrame 0 initialSession 80 32 ≠ [] := by decide

set_option maxRecDepth 10000

/-! ### Helper lemmas -/

theorem takeLast_length (n : Nat) (l : List α) :
    (takeLast n l).length = min l.length n := by
  simp only [takeLast, List.length_drop]
  omega

theorem takeLast_suffix (n : Nat) (l : List α) : takeLast n l <:+ l :=
  ⟨l.take (l.length - n), List.take_append_drop _ l⟩

theorem takeLast_append (x y : List α) (n : Nat) :
    takeLast n (x ++ y) = x.drop (x.length + y.length - n) ++ takeLast n y := by
  simp only [takeLast, List.drop_append_eq_append_drop, List.length_append]
  have h : x.length + y.length - n - x.length = y.length - n := by omega
  rw [h]

theorem clipText_length_le (v : List Char) (w : Nat) :
    (clipText v w).length ≤ w := by
  unfold clipText
  split_ifs with h0 h1 h2 <;> simp_all [List.length_take]
  omega

theorem padText_length (v : List Char) (w : Nat) :
    (padText v w).length = w := by
  have h := clipText_length_le v w
  simp only [padText, List.length_append, List.length_replicate]
  omega

theorem trimEndJs_eq_nil_iff (l : List Char) :
    trimEndJs l = [] ↔ ∀ c ∈ l, isJsSpace c := by
  simp [trimEndJs, List.dropWhile_eq_nil_iff, List.mem_reverse]

theorem trimJs_eq_nil_iff (l : List Char) :
    trimJs l = [] ↔ ∀ c ∈ l, isJsSpace c := by
  unfold trimJs
  rw [trimEndJs_eq_nil_iff]
  constructor
  · intro h c hc
    rw [← List.takeWhile_append_dropWhile isJsSpace l] at hc
    rcases List.mem_append.mp hc with h1 | h2
    · exact List.mem_takeWhile_imp h1
    · exact h c h2
  · intro h c hc
    exact h c ((List.dropWhile_sublist isJsSpace).subset hc)

/-! ### Claim theorems -/

/-- Claim C3 (confirmed): the status returned by `runSubcommand` is
`"success"` iff the exit code is 0, and every non-zero code `N` yields exactly
`"failed (exit N)"`; the non-zero case is an ordinary return value of the
total function, not an exception. -/
theorem runSubcommand_status :
    (∀ so se code, (runSubcommandPure so se code).1 = "success".toList ↔
      code = 0) ∧
    (∀ so se code, code ≠ 0 →
      (runSubcommandPure so se code).1 =
        "failed (exit ".toList ++ (toString code).toList ++ ")".toList) := by
  constructor
  · intro so se code
    constructor
    · intro h
      by_contra hne
      rw [show (runSubcommandPure so se code).1 = statusOf code from rfl,
        statusOf, if_neg hne] at h
      have h2 : ('f' ::
          (("ailed (exit ".toList ++ (toString code).toList) ++ ")".toList))
          = 's' :: "uccess".toList := h
      injection h2 with h3 _
      exact absurd h3 (by decide)
    · intro h
      simp [runSubcommandPure, statusOf, h]
  · intro so se code h
    simp [runSubcommandPure, statusOf, h]

/-- Concrete instance of `runSubcommand_status` at exit codes 0 and 3. -/
theorem runSubcommand_status_witness :
    (runSubcommandPure [] [] 0).1 = "success".toList ∧
    (runSubcommandPure "x\n".toList [] 3).1 =
      "failed (exit ".toList ++ (toString 3).toList ++ ")".toList :=
  ⟨(runSubcommand_status.1 [] [] 0).mpr rfl,
   runSubcommand_status.2 "x\n".toList [] 3 (by decide)⟩

/-- Claim C8 (confirmed): `padText(s, w)` always returns exactly `w`
characters; text that fits is padded on the right with spaces, and longer
text is truncated to end in `"..."` whenever `w > 3`. -/
theorem padText_spec :
    ∀ (v : List Char) (w : Nat),
      (padText v w).length = w ∧
      (v.length ≤ w → padText v w = v ++ List.replicate (w - v.length) ' ') ∧
      (w < v.length → 3 < w →
        padText v w = v.take (w - 3) ++ "...".toList) := by
  intro v w
  refine ⟨padText_length v w, ?_, ?_⟩
  · intro h
    unfold padText clipText
    split_ifs with h0
    · have hv : v = [] := List.length_eq_zero.mp (by omega)
      subst hv
      simp [h0]
    · rfl
  · intro h1 h2
    have hlen : (v.take (w - 3) ++ "...".toList).length = w := by
      simp only [List.length_append, List.length_take]
      have h3 : ("...".toList).length = 3 := rfl
      omega
    unfold padText clipText
    split_ifs with h0 h3 h4
    · omega
    · omega
    · omega
    · show (v.take (w - 3) ++ "...".toList) ++
        List.replicate (w - (v.take (w - 3) ++ "...".toList).length) ' '
          = v.take (w - 3) ++ "...".toList
      rw [hlen]
      simp

/-- Concrete instance of `padText_spec`: padding a short value and
ellipsis-truncating a long one at width 8. -/
theorem padText_spec_witness :
    padText "hi".toList 4 =
      "hi".toList ++ List.replicate (4 - "hi".toList.length) ' ' ∧
    padText "hello world".toList 8 =
      "hello world".toList.take (8 - 3) ++ "...".toList :=
  ⟨(padText_spec "hi".toList 4).2.1 (by decide),
   (padText_spec "hello world".toList 8).2.2 (by decide) (by decide)⟩

/-- Claim C1, amended (the cap in src/unnamed/part_002 line 220 is 120, not
1200): the retained `outputLines` are always a suffix of the combined
stdout-then-stderr lines with length `min (combined length) 120` — at most
120 lines, the most recent ones, oldest dropped first. -/
theorem runSubcommand_cap :
    ∀ so se code,
      (runSubcommandPure so se code).2 <:+ combinedLines so se ∧
      ((runSubcommandPure so se code).2).length =
        min (combinedLines so se).length 120 := by
  intro so se code
  exact ⟨takeLast_suffix 120 (combinedLines so se),
    takeLast_length 120 (combinedLines so se)⟩

/-- Counterexample to claim C1 as stated: a run whose stdout alone decodes to
1201 lines (more than 1200) retains only 120 lines, not the most recent
1200. -/
theorem runSubcommand_cap_counterexample :
    (combinedLines (List.flatten (List.replicate 1201 ['a', '\n'])) []).length
        = 1201 ∧
    ((runSubcommandPure (List.flatten (List.replicate 1201 ['a', '\n']))
        [] 0).2).length = 120 ∧
    (120 : Nat) ≠ 1200 := by
  refine ⟨by decide, ?_, by decide⟩
  have h : ((runSubcommandPure (List.flatten (List.replicate 1201 ['a', '\n']))
      [] 0).2).length =
      min (combinedLines (List.flatten (List.replicate 1201 ['a', '\n'])) []).length
        120 :=
    takeLast_length 120 _
  rw [h]
  decide

/-- Claim C4 (confirmed): in the returned `outputLines`, every
stderr-derived line is the `"[stderr] "` marker followed by the decoded
stderr line, and every stdout-derived line is a decoded stdout line with no
marker added. -/
theorem stderr_tagging :
    ∀ so se code, ∃ a b,
      (runSubcommandPure so se code).2 = a ++ b ∧
      (∀ l ∈ a, l ∈ decodeLines so) ∧
      (∀ l ∈ b, ∃ o ∈ decodeLines se, l = stderrTag ++ o) := by
  intro so se code
  refine ⟨(decodeLines so).drop ((decodeLines so).length +
      ((decodeLines se).map (fun l => stderrTag ++ l)).length - 120),
    takeLast 120 ((decodeLines se).map (fun l => stderrTag ++ l)),
    ?_, ?_, ?_⟩
  · show takeLast 120 (combinedLines so se) = _
    rw [combinedLines]
    exact takeLast_append _ _ 120
  · intro l hl
    exact (List.drop_sublist _ _).subset hl
  · intro l hl
    have hmem := (takeLast_suffix 120 _).sublist.subset hl
    rcases List.mem_map.mp hmem with ⟨o, ho, rfl⟩
    exact ⟨o, ho, rfl⟩

/-- Concrete instance of `stderr_tagging` at one stdout and one stderr
line. -/
theorem stderr_tagging_witness :
    ∃ a b, (runSubcommandPure "x\n".toList "y\n".toList 0).2 = a ++ b ∧
      (∀ l ∈ a, l ∈ decodeLines "x\n".toList) ∧
      (∀ l ∈ b, ∃ o ∈ decodeLines "y\n".toList, l = stderrTag ++ o) :=
  stderr_tagging "x\n".toList "y\n".toList 0

/-- Claim C10 (confirmed): `runSubcommand` drains both streams to completion
and concatenates stdout-first: the returned lines split into a suffix of the
decoded stdout lines followed by a suffix of the tagged stderr lines (so no
stderr line ever precedes a stdout line), and when the combined output fits
the 120-line cap the result is exactly all stdout lines then all stderr
lines. -/
theorem stream_ordering :
    ∀ so se code,
      (∃ a b, (runSubcommandPure so se code).2 = a ++ b ∧
        a <:+ decodeLines so ∧
        b <:+ (decodeLines se).map (fun l => stderrTag ++ l)) ∧
      ((combinedLines so se).length ≤ 120 →
        (runSubcommandPure so se code).2 = combinedLines so se) := by
  intro so se code
  constructor
  · refine ⟨(decodeLines so).drop ((decodeLines so).length +
        ((decodeLines se).map (fun l => stderrTag ++ l)).length - 120),
      takeLast 120 ((decodeLines se).map (fun l => stderrTag ++ l)),
      ?_, List.drop_suffix _ _, takeLast_suffix _ _⟩
    show takeLast 120 (combinedLines so se) = _
    rw [combinedLines]
    exact takeLast_append _ _ 120
  · intro h
    show takeLast 120 (combinedLines so se) = combinedLines so se
    unfold takeLast
    have h0 : (combinedLines so se).length - 120 = 0 := by omega
    rw [h0, List.drop_zero]

/-- Concrete instance of `stream_ordering`: with one line on each stream the
result is exactly the stdout line followed by the tagged stderr line. -/
theorem stream_ordering_witness :
    (runSubcommandPure "x\n".toList "y\n".toList 0).2 =
      combinedLines "x\n".toList "y\n".toList :=
  (stream_ordering "x\n".toList "y\n".toList 0).2 (by decide)

/-- Claim C9 (confirmed): the right pane shows at most `totalRows` lines, the
shown lines are the tail (newest) of the pane, and the output-buffer portion
shown is a tail of `lastOutputLines` (there is no scroll offset in this code,
so the default view is always the newest lines). -/
theorem viewport_tail :
    ∀ (s : SessionState) (rows : Nat), s.lastOutputLines ≠ [] →
      (takeLast (totalRowsOf rows) (buildRightPane s)).length ≤
          totalRowsOf rows ∧
      takeLast (totalRowsOf rows) (buildRightPane s) <:+ buildRightPane s ∧
      ∃ hd, takeLast (totalRowsOf rows) (buildRightPane s)
          = hd ++ takeLast (totalRowsOf rows) s.lastOutputLines ∧
        takeLast (totalRowsOf rows) s.lastOutputLines <:+
          s.lastOutputLines := by
  intro s rows hne
  refine ⟨?_, takeLast_suffix _ _, ?_⟩
  · rw [takeLast_length]
    omega
  · have hbp : buildRightPane s =
        ["=== last run ===".toList,
         "command: ".toList ++ s.lastCommand.getD "-".toList,
         "status: ".toList ++ s.lastStatus.getD "-".toList,
         [],
         "output:".toList] ++ s.lastOutputLines := by
      rw [buildRightPane, if_neg hne]
    refine ⟨["=== last run ===".toList,
         "command: ".toList ++ s.lastCommand.getD "-".toList,
         "status: ".toList ++ s.lastStatus.getD "-".toList,
         [],
         "output:".toList].drop
        (["=== last run ===".toList,
         "command: ".toList ++ s.lastCommand.getD "-".toList,
         "status: ".toList ++ s.lastStatus.getD "-".toList,
         [],
         "output:".toList].length + s.lastOutputLines.length -
          totalRowsOf rows),
      ?_, takeLast_suffix _ _⟩
    rw [hbp]
    exact takeLast_append _ _ (totalRowsOf rows)

/-- A session holding one completed run, used to instantiate
`viewport_tail`. -/
def sampleSession : SessionState :=
  { lastCommand := some "xint search ai".toList,
    lastStatus := some "success".toList,
    lastOutputLines := [['o', 'k']] }

/-- Concrete instance of `viewport_tail` at a 32-row terminal. -/
theorem viewport_tail_witness :
    (takeLast (totalRowsOf 32) (buildRightPane sampleSession)).length ≤
        totalRowsOf 32 ∧
    takeLast (totalRowsOf 32) (buildRightPane sampleSession) <:+
      buildRightPane sampleSession ∧
    ∃ hd, takeLast (totalRowsOf 32) (buildRightPane sampleSession)
        = hd ++ takeLast (totalRowsOf 32) sampleSession.lastOutputLines ∧
      takeLast (totalRowsOf 32) sampleSession.lastOutputLines <:+
        sampleSession.lastOutputLines :=
  viewport_tail sampleSession 32 (by decide)

/-- Claim C5 (confirmed): `requireInput(value, label)` fails with exactly
`"<label> is required."` precisely when the value is empty or all whitespace,
otherwise returns the trimmed value; and a blank required prompt in the
dashboard's Search iteration is caught, surfaced as a `"[tui] ..."` console
message, and the loop continues with the session unchanged instead of
terminating. -/
theorem requireInput_spec :
    (∀ v l, requireInput v l = .error (l ++ " is required.".toList) ↔
      ∀ c ∈ v, isJsSpace c) ∧
    (∀ v l, (¬ ∀ c ∈ v, isJsSpace c) → requireInput v l = .ok (trimJs v)) ∧
    (∀ v (s : SessionState) r, s.lastSearch = none → (∀ c ∈ v, isJsSpace c) →
      searchIteration v s r =
        ⟨s, .continueLoop, ["[tui] Query is required.".toList]⟩) := by
  refine ⟨?_, ?_, ?_⟩
  · intro v l
    rw [← trimJs_eq_nil_iff]
    unfold requireInput
    constructor
    · intro h
      by_contra hne
      rw [if_neg hne] at h
      exact Except.noConfusion h
    · intro h
      rw [if_pos h]
  · intro v l h
    rw [← trimJs_eq_nil_iff] at h
    unfold requireInput
    rw [if_neg h]
  · intro v s r hs hws
    have hv : trimJs v = [] := (trimJs_eq_nil_iff v).mpr hws
    have h1 : promptWithDefault v s.lastSearch = [] := by
      rw [hs]
      unfold promptWithDefault
      simp [hv]
    unfold searchIteration
    rw [h1]
    have h2 : requireInput [] "Query".toList =
        .error ("Query".toList ++ " is required.".toList) := rfl
    rw [h2]
    rfl

/-- Concrete instance of `requireInput_spec`: a whitespace-only Search answer
on a fresh session raises `"Query is required."` and the loop continues. -/
theorem requireInput_spec_witness :
    requireInput "   ".toList "Query".toList =
      .error ("Query".toList ++ " is required.".toList) ∧
    requireInput " ai ".toList "Query".toList = .ok (trimJs " ai ".toList) ∧
    searchIteration "   ".toList initialSession ([], []) =
      ⟨initialSession, .continueLoop, ["[tui] Query is required.".toList]⟩ :=
  ⟨(requireInput_spec.1 "   ".toList "Query".toList).mpr (by decide),
   requireInput_spec.2.1 " ai ".toList "Query".toList (by decide),
   requireInput_spec.2.2 "   ".toList initialSession ([], []) rfl (by decide)⟩

/-- Claim C6 (confirmed): starting from any valid index, every up/down
sequence keeps `activeIndex` a valid index into `MENU_OPTIONS`; up on the
first entry wraps to the last, down on the last wraps to the first, and any
other up/down moves the index by exactly one. -/
theorem selectOption_navigation :
    (∀ i evs, i < MENU_OPTIONS.length →
      navigate i evs < MENU_OPTIONS.length) ∧
    navStep 0 .up = MENU_OPTIONS.length - 1 ∧
    (∀ i, 0 < i → i < MENU_OPTIONS.length → navStep i .up = i - 1) ∧
    navStep (MENU_OPTIONS.length - 1) .down = 0 ∧
    (∀ i, i + 1 < MENU_OPTIONS.length → navStep i .down = i + 1) := by
  have hn : MENU_OPTIONS.length = 7 := rfl
  refine ⟨?_, by decide, ?_, by decide, ?_⟩
  · intro i evs
    induction evs generalizing i with
    | nil => intro h; simpa [navigate] using h
    | cons k rest ih =>
      intro h
      have hstep : navStep i k < MENU_OPTIONS.length := by
        cases k <;> simp only [navStep, hn] <;> omega
      simpa [navigate] using ih _ hstep
  · intro i h0 h1
    rw [hn] at h1
    simp only [navStep, hn]
    omega
  · intro i h
    rw [hn] at h
    simp only [navStep, hn]
    omega

/-- Concrete instance of `selectOption_navigation`: a key sequence stays in
range, and single steps move by one. -/
theorem selectOption_navigation_witness :
    navigate 0 [.down, .down, .up] < MENU_OPTIONS.length ∧
    navStep 2 .up = 1 ∧
    navStep 3 .down = 4 :=
  ⟨selectOption_navigation.1 0 [.down, .down, .up] (by decide),
   selectOption_navigation.2.2.1 2 (by decide) (by decide),
   selectOption_navigation.2.2.2.2 3 (by decide)⟩

/-- Counterexample to claim C7 as stated: at 80 columns — below the claimed
110-column threshold — the first rendered row still contains both the menu
pane header and the output pane header, so the layout is double-pane, not a
single-pane view of one tab. -/
theorem render_threshold_counterexample :
    80 < 110 ∧
    "=== xint interactive ===".toList <:+:
      (renderFrame 0 initialSession 80 32).getD 0 [] ∧
    "=== last run ===".toList <:+:
      (renderFrame 0 initialSession 80 32).getD 0 [] := by
  refine ⟨by decide, by decide, by decide⟩

/-- Claim C7, amended (src/unnamed/part_002 lines 85-107 have no width
threshold, no tabs and no single-pane mode): at every terminal size each
rendered row is the double-pane layout — a left pane padded to `leftWidth`
and a right pane padded to `rightWidth` joined by `" | "`, the active menu
row's left text additionally wrapped in color escapes. -/
theorem render_double_pane :
    ∀ (a : Nat) (s : SessionState) (columns rows : Nat),
      ∀ row ∈ renderFrame a s columns rows,
        ∃ l r, l.length = leftWidthOf columns ∧
          r.length = rightWidthOf columns ∧
          (row = l ++ " | ".toList ++ r ∨
           row = "\x1b[1;36m".toList ++ l ++ "\x1b[0m".toList ++
             " | ".toList ++ r) := by
  intro a s columns rows row hrow
  simp only [renderFrame, List.mem_map] at hrow
  rcases hrow with ⟨i, hi, rfl⟩
  refine ⟨padText ((buildLeftPane a).getD i []) (leftWidthOf columns),
    padText ((takeLast (totalRowsOf rows) (buildRightPane s)).getD i [])
      (rightWidthOf columns),
    padText_length _ _, padText_length _ _, ?_⟩
  simp only [renderRow]
  split_ifs with hact
  · right
    rfl
  · left
    rfl

/-- Concrete instance of `render_double_pane` at the first rendered row of a
120-column frame. -/
theorem render_double_pane_witness :
    ∃ l r, l.length = leftWidthOf 120 ∧ r.length = rightWidthOf 120 ∧
      ((renderFrame 0 initialSession 120 32).getD 0 [] =
          l ++ " | ".toList ++ r ∨
       (renderFrame 0 initialSession 120 32).getD 0 [] =
          "\x1b[1;36m".toList ++ l ++ "\x1b[0m".toList ++ " | ".toList ++ r) :=
  render_double_pane 0 initialSession 120 32 _ (by decide)

theorem sanitizeAux_sublist (st : SanState) (l : List Char) :
    (sanitizeAux st l).Sublist l := by
  induction l generalizing st with
  | nil => cases st <;> simp [sanitizeAux]
  | cons d rest ih =>
    cases st with
    | text =>
      simp only [sanitizeAux]
      split_ifs
      · exact List.Sublist.cons d (ih _)
      · exact List.Sublist.cons d (ih _)
      · exact List.Sublist.cons₂ d (ih _)
    | esc =>
      simp only [sanitizeAux]
      split_ifs <;> exact List.Sublist.cons d (ih _)
    | csi =>
      simp only [sanitizeAux]
      split_ifs <;> exact List.Sublist.cons d (ih _)
    | osc =>
      simp only [sanitizeAux]
      split_ifs <;> exact List.Sublist.cons d (ih _)
    | oscEsc =>
      simp only [sanitizeAux]
      split_ifs <;> exact List.Sublist.cons d (ih _)

theorem sanitizeAux_printable (st : SanState) (l : List Char) (c : Char)
    (h : c ∈ sanitizeAux st l) : 32 ≤ c.toNat ∧ c.toNat ≠ 127 := by
  induction l generalizing st with
  | nil => cases st <;> simp [sanitizeAux] at h
  | cons d rest ih =>
    cases st with
    | text =>
      simp only [sanitizeAux] at h
      split_ifs at h with h1 h2
      · exact ih _ h
      · exact ih _ h
      · rcases List.mem_cons.mp h with hc | hc
        · subst hc
          simp only [isCtl, Bool.or_eq_true, decide_eq_true_eq] at h2
          push_neg at h2
          exact ⟨by omega, h2.2⟩
        · exact ih _ hc
    | esc =>
      simp only [sanitizeAux] at h
      split_ifs at h <;> exact ih _ h
    | csi =>
      simp only [sanitizeAux] at h
      split_ifs at h <;> exact ih _ h
    | osc =>
      simp only [sanitizeAux] at h
      split_ifs at h <;> exact ih _ h
    | oscEsc =>
      simp only [sanitizeAux] at h
      split_ifs at h <;> exact ih _ h

/-- Claim C2 (confirmed; `sanitizeOutputLine` modelled from the spec, its
implementation not being under `src/`): the test vector from
src/lib/tui.test.ts — the word "error" wrapped in color codes, followed by a
window-title escape and a trailing carriage return — sanitizes to exactly
`"error"`; in general the sanitized line is the input's visible characters in
order (a sublist) and contains no control characters at all. -/
theorem sanitizeOutputLine_spec :
    sanitizeOutputLine "\x1b[31merror\x1b[0m\x1b]0;title\x07\r".toList =
      "error".toList ∧
    (∀ l, (sanitizeOutputLine l).Sublist l) ∧
    (∀ l c, c ∈ sanitizeOutputLine l → 32 ≤ c.toNat ∧ c.toNat ≠ 127) :=
  ⟨by decide, fun l => sanitizeAux_sublist .text l,
   fun l c h => sanitizeAux_printable .text l c h⟩

/-- Concrete instance of `sanitizeOutputLine_spec`: the survivors of a line
holding visible text plus a color escape are a sublist of it, and the kept
character `a` is printable. -/
theorem sanitizeOutputLine_spec_witness :
    (sanitizeOutputLine "ab\x1b[31m".toList).Sublist "ab\x1b[31m".toList ∧
    (32 ≤ 'a'.toNat ∧ 'a'.toNat ≠ 127) :=
  ⟨sanitizeOutputLine_spec.2.1 "ab\x1b[31m".toList,
   sanitizeOutputLine_spec.2.2 "ab\x1b[31m".toList 'a' (by decide)⟩
